import Mathlib

/-!
Shallow embedding of pykeen's evaluation engine (`src/pykeen/evaluation/evaluator.py`)
and proofs about its filtering engine, size-search controller and evaluation loop.

Machine tensors are modelled as lists (for boolean masks and coordinate lists) and as
total functions `Nat → Nat → Score` (for dense score matrices, where a distinguished
`Score.nan` value models IEEE NaN written by the in-place filter).  Python exceptions
are modelled by the `Except EvalErr` monad; a read of a Python local variable that has
never been assigned is modelled by `PyLocal.unbound` and raises `EvalErr.unboundLocal`.
-/

namespace Pykeen

/-- The error classes raised by the evaluator code: Python `UnboundLocalError`
(reading a never-assigned local), `ValueError`, `NotImplementedError`, `TypeError`
(indexing `None`), `AssertionError`, and `MemoryError`. -/
inductive EvalErr
  | unboundLocal
  | valueError
  | notImplemented
  | typeError
  | assertionError
  | memoryError
deriving DecidableEq

/-- A knowledge-graph triple (head entity, relation, tail entity). -/
structure Triple where
  head : Nat
  rel : Nat
  tail : Nat
deriving DecidableEq

instance : Inhabited Triple := ⟨⟨0, 0, 0⟩⟩

/-- Column access `t[c]` on a triple, as the source indexes triples by column
0 (head), 1 (relation), 2 (tail). -/
def Triple.col (t : Triple) : Nat → Nat
  | 0 => t.head
  | 1 => t.rel
  | 2 => t.tail
  | _ => 0

/-- The relation filter: a boolean matrix of shape (batch_size, num_positive_triples). -/
abbrev RelFilter := List (List Bool)

/-- A floating-point score: either NaN (written by the in-place filter) or a value. -/
inductive Score
  | nan
  | val (q : ℚ)
deriving DecidableEq

/-- A dense score matrix, indexed by (batch row, entity id). -/
abbrev ScoreMatrix := Nat → Nat → Score

/-- Embedding of `torch.nonzero` on a boolean matrix: the row-major list of
coordinates of `true` entries. -/
def nonzero (m : List (List Bool)) : List (Nat × Nat) :=
  (m.enum.map fun ir => ir.2.enum.filterMap fun jb =>
    if jb.2 then some (ir.1, jb.1) else none).flatten

/-- Embedding of `create_sparse_positive_filter_` (evaluator.py:308-355).
Computes the sparse (batch row, entity id) coordinates of all known positives,
raising `NotImplementedError` for a filter column outside {0, 2}. -/
def create_sparse_positive_filter_ (hrt_batch : List Triple) (all_pos_triples : List Triple)
    (relation_filter : Option RelFilter) (filter_col : Nat) :
    Except EvalErr (List (Nat × Nat) × RelFilter) :=
  if filter_col ≠ 0 ∧ filter_col ≠ 2 then
    .error .notImplemented
  else
    let rf : RelFilter :=
      match relation_filter with
      | some rf => rf
      | none => hrt_batch.map fun b => all_pos_triples.map fun p => p.rel == b.rel
    let other_col := 2 - filter_col
    let entity_filter_test : RelFilter :=
      hrt_batch.map fun b => all_pos_triples.map fun p => p.col other_col == b.col other_col
    let filter_batch := nonzero (List.zipWith (List.zipWith (· && ·)) entity_filter_test rf)
    .ok (filter_batch.map fun ij => (ij.1, (all_pos_triples.getD ij.2 default).col filter_col), rf)

/-- Embedding of `create_dense_positive_mask_` (evaluator.py:358-373): scatter ones
into a zero tensor at the filter coordinates. -/
def create_dense_positive_mask_ (zero_tensor : ScoreMatrix)
    (filter_batch : List (Nat × Nat)) : ScoreMatrix :=
  fun i j => if (i, j) ∈ filter_batch then Score.val 1 else zero_tensor i j

/-- Embedding of `filter_scores_` (evaluator.py:376-404): overwrite all filter
coordinates with NaN.  (The all-NaN-row warning is a log side effect and carries
no data flow.) -/
def filter_scores_ (scores : ScoreMatrix) (filter_batch : List (Nat × Nat)) : ScoreMatrix :=
  fun i j => if (i, j) ∈ filter_batch then Score.nan else scores i j

/-- Embedding of `_compute_triples_mask_high_memory` (evaluator.py:407-439):
broadcast comparison of each triple column against the restriction sets;
the entity restriction is ANDed over both entity columns. -/
def _compute_triples_mask_high_memory (mapped_triples : List Triple)
    (restrict_entities_to restrict_relations_to : Option (List Nat)) : List Bool :=
  let mask : List Bool := List.replicate mapped_triples.length true
  let mask :=
    match restrict_entities_to with
    | none => mask
    | some es =>
      let mask := List.zipWith (· && ·) mask
        (mapped_triples.map fun t => es.any fun e => t.head == e)
      List.zipWith (· && ·) mask (mapped_triples.map fun t => es.any fun e => t.tail == e)
  match restrict_relations_to with
  | none => mask
  | some rs =>
    List.zipWith (· && ·) mask (mapped_triples.map fun t => rs.any fun r => t.rel == r)

/-- Embedding of `_compute_triples_mask_low_memory` (evaluator.py:442-480):
incremental accumulation over the restriction sets.  Note the source computes
`triples_relation_mask` but never combines it into `mask`; the embedding
reproduces this faithfully (the binding is dead). -/
def _compute_triples_mask_low_memory (mapped_triples : List Triple)
    (restrict_entities_to restrict_relations_to : Option (List Nat)) : List Bool :=
  let mask : List Bool := List.replicate mapped_triples.length true
  let mask :=
    match restrict_entities_to with
    | none => mask
    | some es =>
      let triples_entity_mask : List Bool :=
        es.foldl (fun acc e =>
          let acc := List.zipWith (· || ·) acc (mapped_triples.map fun t => t.head == e)
          List.zipWith (· || ·) acc (mapped_triples.map fun t => t.tail == e))
          (List.replicate mapped_triples.length false)
      List.zipWith (· && ·) mask triples_entity_mask
  match restrict_relations_to with
  | none => mask
  | some rs =>
    let triples_relation_mask : List Bool :=
      rs.foldl (fun acc r =>
        List.zipWith (· || ·) acc (mapped_triples.map fun t => t.rel == r))
        (List.replicate mapped_triples.length false)
    -- The source never folds `triples_relation_mask` into `mask` before returning.
    let _ := triples_relation_mask
    mask

/-- The external model's opaque scoring interface: `predict_scores_all_tails`
receives the (head, relation) columns of the batch, `predict_scores_all_heads`
the (relation, tail) columns, together with the optional slice size, and each
returns a dense score matrix. -/
structure ModelFuns where
  predict_tails : List (Nat × Nat) → Option Nat → ScoreMatrix
  predict_heads : List (Nat × Nat) → Option Nat → ScoreMatrix

/-- The model call in `_evaluate` (evaluator.py:695-698): tail scores for
column 2, head scores for column 0. -/
def predictScores (model : ModelFuns) (batch : List Triple) (column : Nat)
    (slice_size : Option Nat) : ScoreMatrix :=
  if column = 2 then model.predict_tails (batch.map fun t => (t.head, t.rel)) slice_size
  else model.predict_heads (batch.map fun t => (t.rel, t.tail)) slice_size

/-- Torch advanced indexing `m[:, cols]`: column-restricted matrix. -/
def restrictCols (m : ScoreMatrix) (cols : List Nat) : ScoreMatrix :=
  fun i j => m i (cols.getD j 0)

/-- Column restriction as applied by `_evaluate`: restrict when an entity
restriction is present, identity otherwise. -/
def maybeRestrict (re : Option (List Nat)) (m : ScoreMatrix) : ScoreMatrix :=
  match re with
  | some cols => restrictCols m cols
  | none => m

/-- Observable events of one `_evaluate` call: a `process_*_scores_` dispatch to an
unfiltered evaluator (with the scores, true scores and optional dense mask it is
handed), the in-place `filter_scores_` mutation, and a dispatch to a filtered
evaluator. -/
inductive EvEvent
  | unfilteredProcess (idx : Nat) (scores : ScoreMatrix) (true_scores : Nat → Score)
      (mask : Option ScoreMatrix)
  | filterApplied
  | filteredProcess (idx : Nat) (scores : ScoreMatrix) (true_scores : Nat → Score)

/-- Embedding of `_evaluate` (evaluator.py:649-773).  Returns the list of observable
events in program order together with either the raised error or the relation filter
returned for re-use.  Evaluators are represented by their counts: dispatch loops
produce one event per evaluator index. -/
def _evaluate (model : ModelFuns) (batch : List Triple) (column : Nat)
    (numUnfiltered numFiltered : Nat) (slice_size : Option Nat)
    (all_pos_triples : Option (List Triple))
    (relation_filter : Option RelFilter)
    (restrict_entities_to : Option (List Nat))
    (positive_masks_required filtering_necessary : Bool) :
    List EvEvent × Except EvalErr (Option RelFilter) :=
  if column = 0 ∨ column = 2 then
    let scores := predictScores model batch column slice_size
    let true_scores : Nat → Score := fun i => scores i ((batch.getD i default).col column)
    -- Create positive filter for all corrupted entities (lines 705-712); the `assert`
    -- on `all_pos_triples` raises AssertionError when it is `None`.  When the branch
    -- is not taken, `positive_filter_tails` stays unbound (`none`).
    let step1 : Except EvalErr (Option (List (Nat × Nat)) × Option RelFilter) :=
      if filtering_necessary || positive_masks_required then
        match all_pos_triples with
        | none => .error .assertionError
        | some pos =>
          match create_sparse_positive_filter_ batch pos relation_filter column with
          | .error e => .error e
          | .ok (pf, rf) => .ok (some pf, some rf)
      else .ok (none, relation_filter)
    match step1 with
    | .error e => ([], .error e)
    | .ok (positive_filter_tails, relation_filter) =>
      -- Dense positive mask (lines 714-721); reading the unbound local raises.
      let step2 : Except EvalErr (Option ScoreMatrix) :=
        if positive_masks_required then
          match positive_filter_tails with
          | none => .error .unboundLocal
          | some pf =>
            .ok (some (create_dense_positive_mask_ (fun _ _ => Score.val 0) pf))
        else .ok none
      match step2 with
      | .error e => ([], .error e)
      | .ok positive_mask_tails =>
        -- Restrict to entities of interest (lines 723-728).  When no mask was
        -- computed, `positive_mask_tails[:, restrict_entities_to]` indexes `None`
        -- and raises TypeError.
        let step3 : Except EvalErr (ScoreMatrix × Option ScoreMatrix) :=
          match restrict_entities_to with
          | some cols =>
            match positive_mask_tails with
            | none => .error .typeError
            | some m => .ok (restrictCols scores cols, some (restrictCols m cols))
          | none => .ok (scores, positive_mask_tails)
        match step3 with
        | .error e => ([], .error e)
        | .ok (scores_, mask_) =>
          -- Unfiltered dispatch (lines 730-741).
          let unfEvents := (List.range numUnfiltered).map fun idx =>
            EvEvent.unfilteredProcess idx scores_ true_scores mask_
          -- Filtering (lines 743-771): in-place NaN filter on the pre-restriction
          -- scores, true-score rewrite, restriction, filtered dispatch.
          if filtering_necessary then
            match positive_filter_tails with
            | none => (unfEvents, .error .unboundLocal)
            | some pf =>
              let filtered := filter_scores_ scores pf
              let filtered : ScoreMatrix := fun i j =>
                if i < batch.length ∧ j = (batch.getD i default).col column
                then true_scores i else filtered i j
              let filtered :=
                match restrict_entities_to with
                | some cols => restrictCols filtered cols
                | none => filtered
              let filtEvents := (List.range numFiltered).map fun idx =>
                EvEvent.filteredProcess idx filtered true_scores
              (unfEvents ++ EvEvent.filterApplied :: filtEvents, .ok relation_filter)
          else (unfEvents, .ok relation_filter)
  else ([], .error .valueError)

/-- An evaluator's capability flags (base class `Evaluator.__init__`,
evaluator.py:62-72). -/
structure EvalSpec where
  filtered : Bool
  requires_positive_mask : Bool
deriving DecidableEq

/-- A Python local variable: unbound until first assignment. -/
inductive PyLocal (α : Type)
  | unbound
  | bound (a : α)

/-- Modelled from the spec: "Partition `triples` into sequential, non-overlapping
batches of size `batch_size` (last batch may be smaller)" — the source helper
`split_list_in_batches_iter` lives in `pykeen/utils.py`, outside the provided
sources. -/
def split_list_in_batches (l : List Triple) (n : Nat) : List (List Triple) :=
  match l, n with
  | [], _ => []
  | _, 0 => []
  | a :: rest, (m + 1) =>
    (a :: rest).take (m + 1) :: split_list_in_batches ((a :: rest).drop (m + 1)) (m + 1)
termination_by l.length
decreasing_by simp [List.length_drop]; omega

/-- The batch loop of `evaluate` (evaluator.py:607-632): two corruption columns per
batch, each call reading and then re-assigning the local `relation_filter`, which is
unbound before its first assignment; with `only_size_probing`, stop after the second
batch. -/
def evaluateLoop (model : ModelFuns) (numUnfiltered numFiltered : Nat)
    (slice_size : Option Nat) (all_pos_triples : Option (List Triple))
    (restrict_entities_to : Option (List Nat))
    (positive_masks_required filtering_necessary only_size_probing : Bool) :
    List (List Triple) → PyLocal (Option RelFilter) → Bool → List EvEvent →
    List EvEvent × Except EvalErr Unit
  | [], _, _, acc => (acc, .ok ())
  | batch :: rest, rfVar, evaluated_once, acc =>
    match rfVar with
    | .unbound => (acc, .error .unboundLocal)
    | .bound rf0 =>
      match _evaluate model batch 0 numUnfiltered numFiltered slice_size
          all_pos_triples rf0 restrict_entities_to
          positive_masks_required filtering_necessary with
      | (ev0, .error e) => (acc ++ ev0, .error e)
      | (ev0, .ok rf1) =>
        match _evaluate model batch 2 numUnfiltered numFiltered slice_size
            all_pos_triples rf1 restrict_entities_to
            positive_masks_required filtering_necessary with
        | (ev2, .error e) => (acc ++ ev0 ++ ev2, .error e)
        | (ev2, .ok rf2) =>
          if only_size_probing && evaluated_once then (acc ++ ev0 ++ ev2, .ok ())
          else
            evaluateLoop model numUnfiltered numFiltered slice_size all_pos_triples
              restrict_entities_to positive_masks_required filtering_necessary
              only_size_probing rest (.bound rf2) true (acc ++ ev0 ++ ev2)

/-- The triple-restriction step of `evaluate` (evaluator.py:543-553): compute the
mask with the selected variant and keep only the selected rows. -/
def restrictTriples (mapped_triples : List Triple)
    (restrict_entities_to restrict_relations_to : Option (List Nat))
    (memory_intense_filtering : Bool) : List Triple :=
  if restrict_relations_to ≠ none ∨ restrict_entities_to ≠ none then
    let mask :=
      if memory_intense_filtering then
        _compute_triples_mask_high_memory mapped_triples
          restrict_entities_to restrict_relations_to
      else
        _compute_triples_mask_low_memory mapped_triples
          restrict_entities_to restrict_relations_to
    ((mapped_triples.zip mask).filter fun tb => tb.2).map fun tb => tb.1
  else mapped_triples

/-- Embedding of `evaluate` (evaluator.py:483-646): restriction masking, evaluator
partitioning, construction of the positive-triple set, batching, and the batch loop.
`train_triples` stands for `model.triples_factory.mapped_triples`.  Returns the
dispatched events and either `()` (normal completion, after which the finalize and
squeeze steps are pure bookkeeping) or the raised error. -/
def evaluate (model : ModelFuns) (train_triples mapped_triples : List Triple)
    (evaluators : List EvalSpec) (only_size_probing : Bool)
    (batch_size slice_size : Option Nat)
    (restrict_entities_to restrict_relations_to : Option (List Nat))
    (memory_intense_filtering : Bool) :
    List EvEvent × Except EvalErr Unit :=
  -- Filter triples (lines 543-553)
  let mapped_triples := restrictTriples mapped_triples
    restrict_entities_to restrict_relations_to memory_intense_filtering
  -- Partition evaluators (lines 564-572)
  let filtered_evaluators := evaluators.filter fun e => e.filtered
  let unfiltered_evaluators := evaluators.filter fun e => !e.filtered
  let filtering_necessary := filtered_evaluators.length > 0
  let positive_masks_required := unfiltered_evaluators.any fun e => e.requires_positive_mask
  -- Prepare for result filtering (lines 574-579)
  let all_pos_triples :=
    if filtering_necessary || positive_masks_required then
      some (train_triples ++ mapped_triples)
    else none
  -- Prepare batches (lines 584-587)
  let batch_size := batch_size.getD 1
  let batches := split_list_in_batches mapped_triples batch_size
  -- Batch-wise processing (lines 607-632); `relation_filter` starts unbound.
  evaluateLoop model unfiltered_evaluators.length filtered_evaluators.length slice_size
    all_pos_triples restrict_entities_to positive_masks_required filtering_necessary
    only_size_probing batches .unbound false []

/-- The tuned parameter of `_param_size_search`: `key ∈ {batch_size, slice_size}`. -/
inductive SearchKey
  | batch_size
  | slice_size
deriving DecidableEq

/-- The `batch_size` entry of `values_dict` as a function of the tuned value:
for the slice search the batch size is pinned to 1 (evaluator.py:243, 247). -/
def probedBatch (key : SearchKey) (value : Nat) : Nat :=
  match key with
  | .batch_size => value
  | .slice_size => 1

/-- The `slice_size` entry of `values_dict` as a function of the tuned value
(evaluator.py:243, 246). -/
def probedSlice (key : SearchKey) (value : Nat) : Option Nat :=
  match key with
  | .batch_size => none
  | .slice_size => some value

/-- Embedding of `_check_slicing_availability` (evaluator.py:294-305): with inverse
triples only `can_slice_t` is checked; otherwise both `can_slice_t` and `can_slice_h`
are required; a missing capability raises `MemoryError`. -/
def _check_slicing_availability (create_inverse_triples can_slice_t can_slice_h : Bool) :
    Except EvalErr Unit :=
  if create_inverse_triples then
    if !can_slice_t then .error .memoryError else .ok ()
  else if !can_slice_t || !can_slice_h then .error .memoryError
  else .ok ()

/-- The `while True` probe loop of `_param_size_search` (evaluator.py:253-291).
`probe bs ss = true` models `evaluate(batch_size=bs, slice_size=ss, ...)` returning
normally, `false` models it raising a memory-class `RuntimeError` (non-memory errors
are re-raised unchanged and are not modelled).  The `fuel` argument is an artifact
making the unbounded loop structurally recursive; `none` means the fuel ran out. -/
def _param_size_search_loop (probe : Nat → Option Nat → Bool) (key : SearchKey)
    (maximum_triples : Nat) :
    Nat → Bool → Bool → Nat → Option (Nat × Bool)
  | _, _, _, 0 => none
  | value, reached_max, evaluated_once, fuel + 1 =>
    if probe (probedBatch key value) (probedSlice key value) then
      -- success: grow while the ceiling is unhit and batch_size < maximum_triples;
      -- otherwise conclude after a repeated success at the same value.
      if !reached_max && probedBatch key value < maximum_triples then
        _param_size_search_loop probe key maximum_triples (value * 2) reached_max true fuel
      else if evaluated_once then some (value, evaluated_once)
      else _param_size_search_loop probe key maximum_triples value reached_max true fuel
    else
      -- memory-class failure: stop at 1, else halve and resume unconfirmed.
      if value = 1 then some (value, evaluated_once)
      else _param_size_search_loop probe key maximum_triples (value / 2) true false fuel

/-- Embedding of `_param_size_search` (evaluator.py:226-292): initial-value setup
(default 256 clamped to the triple count for the batch search; slicing-availability
check and batch size pinned to 1 for the slice search), then the probe loop.
Returns the final value of the tuned key together with `evaluated_once`. -/
def _param_size_search (probe : Nat → Option Nat → Bool) (key : SearchKey)
    (start_value : Option Nat) (maximum_triples : Nat)
    (create_inverse_triples can_slice_t can_slice_h : Bool) (fuel : Nat) :
    Option (Except EvalErr (Nat × Bool)) :=
  match key with
  | .batch_size =>
    let sv := start_value.getD 256
    let sv := if sv > maximum_triples then maximum_triples else sv
    (_param_size_search_loop probe .batch_size maximum_triples sv false false fuel).map .ok
  | .slice_size =>
    match _check_slicing_availability create_inverse_triples can_slice_t can_slice_h with
    | .error e => some (.error e)
    | .ok _ =>
      (_param_size_search_loop probe .slice_size maximum_triples (start_value.getD 0)
        false false fuel).map .ok

/-- Embedding of `batch_and_slice` (evaluator.py:163-224): run the batch-size search;
if it never evaluated once, fall back to the slice-size search starting at
`ceil(num_entities / 2)`; if that also never succeeds, raise `MemoryError`. -/
def batch_and_slice (probe : Nat → Option Nat → Bool) (batch_size : Option Nat)
    (maximum_triples num_entities : Nat)
    (create_inverse_triples can_slice_t can_slice_h : Bool) (fuel : Nat) :
    Option (Except EvalErr (Nat × Option Nat)) :=
  match _param_size_search probe .batch_size batch_size maximum_triples
    create_inverse_triples can_slice_t can_slice_h fuel with
  | none => none
  | some (.error e) => some (.error e)
  | some (.ok (bs, evaluated_once)) =>
    if evaluated_once then some (.ok (bs, none))
    else
      match _param_size_search probe .slice_size (some ((num_entities + 1) / 2))
        maximum_triples create_inverse_triples can_slice_t can_slice_h fuel with
      | none => none
      | some (.error e) => some (.error e)
      | some (.ok (ss, evaluated_once2)) =>
        if !evaluated_once2 then some (.error .memoryError)
        else some (.ok (bs, some ss))

/-- A concrete model with constant scores, used to instantiate universally
quantified theorems at concrete inputs. -/
def testModel : ModelFuns :=
  ⟨fun _ _ _ _ => Score.val 0, fun _ _ _ _ => Score.val 0⟩

/-! ### Helper lemmas -/

theorem mem_nonzero {m : List (List Bool)} {i j : Nat} :
    (i, j) ∈ nonzero m ↔ ∃ row, m[i]? = some row ∧ row[j]? = some true := by
  unfold nonzero
  rw [List.mem_flatten]
  constructor
  · rintro ⟨L, hL, hmem⟩
    rw [List.mem_map] at hL
    obtain ⟨⟨k, row⟩, hkrow, rfl⟩ := hL
    rw [List.mem_filterMap] at hmem
    obtain ⟨⟨j', b⟩, hjb, hif⟩ := hmem
    rw [List.mk_mem_enum_iff_getElem?] at hkrow hjb
    cases b
    · simp at hif
    · simp only [if_pos, Option.some.injEq, Prod.mk.injEq] at hif
      obtain ⟨rfl, rfl⟩ := hif
      exact ⟨row, hkrow, hjb⟩
  · rintro ⟨row, hrow, htrue⟩
    refine ⟨row.enum.filterMap fun jb => if jb.2 then some (i, jb.1) else none, ?_, ?_⟩
    · rw [List.mem_map]
      exact ⟨(i, row), List.mk_mem_enum_iff_getElem?.mpr hrow, rfl⟩
    · rw [List.mem_filterMap]
      exact ⟨(j, true), List.mk_mem_enum_iff_getElem?.mpr htrue, by simp⟩

theorem mem_create_sparse {batch pos : List Triple} {fc : Nat} (hfc : fc = 0 ∨ fc = 2)
    {fb : List (Nat × Nat)} {rf : RelFilter}
    (hok : create_sparse_positive_filter_ batch pos none fc = .ok (fb, rf))
    {i e : Nat} :
    (i, e) ∈ fb ↔ ∃ b : Triple, batch[i]? = some b ∧ ∃ (j : Nat) (p : Triple),
      pos[j]? = some p ∧
      p.rel = b.rel ∧ p.col (2 - fc) = b.col (2 - fc) ∧ p.col fc = e := by
  have hcond : ¬(fc ≠ 0 ∧ fc ≠ 2) := by rcases hfc with h | h <;> simp [h]
  unfold create_sparse_positive_filter_ at hok
  rw [if_neg hcond] at hok
  simp only [Except.ok.injEq, Prod.mk.injEq] at hok
  obtain ⟨hfb, hrf⟩ := hok
  subst hfb
  constructor
  · intro hmem
    rw [List.mem_map] at hmem
    obtain ⟨⟨i', j⟩, hmem, heq⟩ := hmem
    simp only [Prod.mk.injEq] at heq
    obtain ⟨rfl, rfl⟩ := heq
    rw [mem_nonzero] at hmem
    obtain ⟨row, hrow, htrue⟩ := hmem
    rw [List.getElem?_zipWith_eq_some] at hrow
    obtain ⟨et, rfr, het, hrfr, rfl⟩ := hrow
    rw [List.getElem?_zipWith_eq_some] at htrue
    obtain ⟨x, y, hx, hy, hxy⟩ := htrue
    rw [List.getElem?_map] at het hrfr
    obtain ⟨b, hb, rfl⟩ := Option.map_eq_some'.mp het
    obtain ⟨b', hb', hbb⟩ := Option.map_eq_some'.mp hrfr
    rw [hb] at hb'
    obtain rfl : b = b' := by injection hb'
    subst hbb
    rw [List.getElem?_map] at hx hy
    obtain ⟨p, hp, rfl⟩ := Option.map_eq_some'.mp hx
    obtain ⟨p', hp', hpp⟩ := Option.map_eq_some'.mp hy
    rw [hp] at hp'
    obtain rfl : p = p' := by injection hp'
    subst hpp
    rw [Bool.and_eq_true, beq_iff_eq, beq_iff_eq] at hxy
    refine ⟨b, hb, j, p, hp, hxy.2, hxy.1, ?_⟩
    rw [List.getD_eq_getElem?_getD, hp]
    rfl
  · rintro ⟨b, hb, j, p, hp, hrel, hent, hcol⟩
    rw [List.mem_map]
    refine ⟨(i, j), ?_, ?_⟩
    · rw [mem_nonzero]
      refine ⟨List.zipWith (· && ·) (pos.map fun q => q.col (2 - fc) == b.col (2 - fc))
        (pos.map fun q => q.rel == b.rel), ?_, ?_⟩
      · rw [List.getElem?_zipWith_eq_some]
        exact ⟨_, _, by rw [List.getElem?_map, hb]; rfl, by rw [List.getElem?_map, hb]; rfl, rfl⟩
      · rw [List.getElem?_zipWith_eq_some]
        refine ⟨_, _, by rw [List.getElem?_map, hp]; rfl, by rw [List.getElem?_map, hp]; rfl, ?_⟩
        simp [hrel, hent]
    · simp [List.getD_eq_getElem?_getD, hp, hcol]

theorem create_sparse_ok (batch pos : List Triple) (rfo : Option RelFilter) (fc : Nat)
    (hfc : fc = 0 ∨ fc = 2) :
    ∃ r, create_sparse_positive_filter_ batch pos rfo fc = .ok r := by
  have hcond : ¬(fc ≠ 0 ∧ fc ≠ 2) := by rcases hfc with h | h <;> simp [h]
  unfold create_sparse_positive_filter_
  rw [if_neg hcond]
  exact ⟨_, rfl⟩

/-! ### Claim theorems -/

/-- C3: for every batch, every positive-triple set and every `filter_col ∈ {0, 2}`,
`create_sparse_positive_filter_` returns exactly the pairs `(i, e)` such that some
positive triple has the same relation as batch row `i`, the same entity as batch
row `i` in the non-corrupted column `2 - filter_col`, and entity `e` in the corrupted
column — no extra pairs and none missing. -/
theorem C3_sparse_filter_exact (batch pos : List Triple) (fc : Nat)
    (hfc : fc = 0 ∨ fc = 2) :
    ∃ fb rf, create_sparse_positive_filter_ batch pos none fc = .ok (fb, rf) ∧
      ∀ i e : Nat, (i, e) ∈ fb ↔ ∃ b : Triple, batch[i]? = some b ∧
        ∃ (j : Nat) (p : Triple), pos[j]? = some p ∧
          p.rel = b.rel ∧ p.col (2 - fc) = b.col (2 - fc) ∧ p.col fc = e := by
  obtain ⟨⟨fb, rf⟩, hok⟩ := create_sparse_ok batch pos none fc hfc
  exact ⟨fb, rf, hok, fun i e => mem_create_sparse hfc hok⟩

/-- Witness for C3 on a concrete batch and positive set. -/
theorem C3_sparse_filter_exact_witness :
    ∃ fb rf, create_sparse_positive_filter_ [⟨0, 0, 1⟩, ⟨1, 0, 2⟩] [⟨0, 0, 1⟩, ⟨1, 0, 2⟩]
        none 2 = .ok (fb, rf) ∧
      ∀ i e : Nat, (i, e) ∈ fb ↔ ∃ b : Triple, [Triple.mk 0 0 1, Triple.mk 1 0 2][i]? = some b ∧
        ∃ (j : Nat) (p : Triple), [Triple.mk 0 0 1, Triple.mk 1 0 2][j]? = some p ∧
          p.rel = b.rel ∧ p.col (2 - 2) = b.col (2 - 2) ∧ p.col 2 = e :=
  C3_sparse_filter_exact [⟨0, 0, 1⟩, ⟨1, 0, 2⟩] [⟨0, 0, 1⟩, ⟨1, 0, 2⟩] 2 (Or.inr rfl)

/-- C2 (code bug in the source): the two restriction-mask variants disagree.  The
low-memory variant computes its relation mask but never combines it into the result,
so a relation restriction is silently ignored (triple (0, 5, 0) with relation
restriction {1} is kept by the low-memory variant, dropped by the high-memory one);
moreover its entity accumulation requires only one of head/tail in the restriction
set while the high-memory variant requires both. -/
theorem C2_mask_variants_disagree :
    _compute_triples_mask_low_memory [⟨0, 5, 0⟩] none (some [1]) = [true] ∧
    _compute_triples_mask_high_memory [⟨0, 5, 0⟩] none (some [1]) = [false] ∧
    _compute_triples_mask_low_memory [⟨0, 0, 1⟩] (some [0]) none = [true] ∧
    _compute_triples_mask_high_memory [⟨0, 0, 1⟩] (some [0]) none = [false] :=
  ⟨rfl, rfl, rfl, rfl⟩

theorem _evaluate_error_cases (model : ModelFuns) (batch : List Triple) {c : Nat}
    (nU nF : Nat) (ss : Option Nat) (ap : Option (List Triple)) (rfo : Option RelFilter)
    (re : Option (List Nat)) (pmr fn : Bool) (hc : c = 0 ∨ c = 2) (e : EvalErr)
    (he : (_evaluate model batch c nU nF ss ap rfo re pmr fn).2 = .error e) :
    e = .assertionError ∨ e = .typeError := by
  rcases hc with rfl | rfl
  · cases ap with
    | none =>
      cases pmr <;> cases fn <;> cases re <;> simp only [_evaluate] at he <;> simp_all
    | some pos =>
      rcases create_sparse_ok batch pos rfo 0 (Or.inl rfl) with ⟨⟨pf, rf2⟩, hr⟩
      cases pmr <;> cases fn <;> cases re <;> simp only [_evaluate, hr] at he <;> simp_all
  · cases ap with
    | none =>
      cases pmr <;> cases fn <;> cases re <;> simp only [_evaluate] at he <;> simp_all
    | some pos =>
      rcases create_sparse_ok batch pos rfo 2 (Or.inr rfl) with ⟨⟨pf, rf2⟩, hr⟩
      cases pmr <;> cases fn <;> cases re <;> simp only [_evaluate, hr] at he <;> simp_all

/-- C9: `create_sparse_positive_filter_` raises `NotImplementedError` for every
`filter_col` outside {0, 2} and `_evaluate` raises `ValueError` for every column
outside {0, 2}; for columns in {0, 2} neither function raises its contract error
(the sparse-filter builder returns normally, and any error `_evaluate` raises is
an `AssertionError` or `TypeError`, never the contract errors). -/
theorem C9_invalid_column_contract (c : Nat) :
    (c ≠ 0 → c ≠ 2 →
      (∀ (batch pos : List Triple) (rfo : Option RelFilter),
        create_sparse_positive_filter_ batch pos rfo c = .error .notImplemented) ∧
      (∀ (model : ModelFuns) (batch : List Triple) (nU nF : Nat) (ss : Option Nat)
          (ap : Option (List Triple)) (rfo : Option RelFilter) (re : Option (List Nat))
          (pmr fn : Bool),
        _evaluate model batch c nU nF ss ap rfo re pmr fn = ([], .error .valueError))) ∧
    (c = 0 ∨ c = 2 →
      (∀ (batch pos : List Triple) (rfo : Option RelFilter),
        ∃ r, create_sparse_positive_filter_ batch pos rfo c = .ok r) ∧
      (∀ (model : ModelFuns) (batch : List Triple) (nU nF : Nat) (ss : Option Nat)
          (ap : Option (List Triple)) (rfo : Option RelFilter) (re : Option (List Nat))
          (pmr fn : Bool) (e : EvalErr),
        (_evaluate model batch c nU nF ss ap rfo re pmr fn).2 = .error e →
        e ≠ .notImplemented ∧ e ≠ .valueError)) := by
  constructor
  · intro hc0 hc2
    have hcond : c ≠ 0 ∧ c ≠ 2 := ⟨hc0, hc2⟩
    have hneg : ¬(c = 0 ∨ c = 2) := by tauto
    constructor
    · intro batch pos rfo
      unfold create_sparse_positive_filter_
      rw [if_pos hcond]
    · intro model batch nU nF ss ap rfo re pmr fn
      unfold _evaluate
      rw [if_neg hneg]
  · intro hc
    refine ⟨fun batch pos rfo => create_sparse_ok batch pos rfo c hc, ?_⟩
    intro model batch nU nF ss ap rfo re pmr fn e he
    rcases _evaluate_error_cases model batch nU nF ss ap rfo re pmr fn hc e he with h | h <;>
      subst h <;> exact ⟨by simp, by simp⟩

/-- Witness for C9 at the out-of-range column 1 and the in-range column 2. -/
theorem C9_invalid_column_contract_witness :
    create_sparse_positive_filter_ [] [] none 1 = .error .notImplemented ∧
    (∃ r, create_sparse_positive_filter_ [] [] none 2 = .ok r) :=
  ⟨(C9_invalid_column_contract 1).1 (by decide) (by decide) |>.1 [] [] none,
   (C9_invalid_column_contract 2).2 (Or.inr rfl) |>.1 [] [] none⟩

theorem evalRestrTypeErr (model : ModelFuns) (batch : List Triple) {c : Nat}
    (hc : c = 0 ∨ c = 2) (nU nF : Nat) (ss : Option Nat) (pos : List Triple)
    (rfo : Option RelFilter) (cols : List Nat) (fn : Bool) :
    _evaluate model batch c nU nF ss (some pos) rfo (some cols) false fn
      = ([], .error .typeError) := by
  rcases hc with rfl | rfl <;>
    [rcases create_sparse_ok batch pos rfo 0 (Or.inl rfl) with ⟨⟨pf, rf2⟩, hr⟩;
     rcases create_sparse_ok batch pos rfo 2 (Or.inr rfl) with ⟨⟨pf, rf2⟩, hr⟩] <;>
    cases fn <;> simp [_evaluate, hr]

theorem evalRestrTypeErrNoPos (model : ModelFuns) (batch : List Triple) {c : Nat}
    (hc : c = 0 ∨ c = 2) (nU nF : Nat) (ss : Option Nat) (rfo : Option RelFilter)
    (cols : List Nat) :
    _evaluate model batch c nU nF ss none rfo (some cols) false false
      = ([], .error .typeError) := by
  rcases hc with rfl | rfl <;> simp [_evaluate]

theorem evalRestrAssert (model : ModelFuns) (batch : List Triple) {c : Nat}
    (hc : c = 0 ∨ c = 2) (nU nF : Nat) (ss : Option Nat) (rfo : Option RelFilter)
    (cols : List Nat) :
    _evaluate model batch c nU nF ss none rfo (some cols) false true
      = ([], .error .assertionError) := by
  rcases hc with rfl | rfl <;> simp [_evaluate]

theorem evalRestrOkWithMask (model : ModelFuns) (batch : List Triple) {c : Nat}
    (hc : c = 0 ∨ c = 2) (nU nF : Nat) (ss : Option Nat) (pos : List Triple)
    (rfo : Option RelFilter) (cols : List Nat) (fn : Bool) :
    ∃ rfr, (_evaluate model batch c nU nF ss (some pos) rfo (some cols) true fn).2
      = .ok rfr := by
  rcases hc with rfl | rfl <;>
    [rcases create_sparse_ok batch pos rfo 0 (Or.inl rfl) with ⟨⟨pf, rf2⟩, hr⟩;
     rcases create_sparse_ok batch pos rfo 2 (Or.inr rfl) with ⟨⟨pf, rf2⟩, hr⟩] <;>
    cases fn <;> exact ⟨some rf2, by simp [_evaluate, hr]⟩

/-- C10: every `_evaluate` call with an entity restriction while no positive mask is
required fails before dispatching to any evaluator (the event trace is empty and an
error is raised); with a valid column and the positive triples supplied the error is
precisely the `TypeError` from indexing the `None` mask; and the restricted call
returns normally when a positive mask is required. -/
theorem C10_restriction_requires_mask (model : ModelFuns) (batch : List Triple)
    (c : Nat) (nU nF : Nat) (ss : Option Nat) (ap : Option (List Triple))
    (rfo : Option RelFilter) (cols : List Nat) (fn : Bool) :
    ((_evaluate model batch c nU nF ss ap rfo (some cols) false fn).1 = [] ∧
      ∃ e, (_evaluate model batch c nU nF ss ap rfo (some cols) false fn).2 = .error e) ∧
    (c = 0 ∨ c = 2 → ap ≠ none ∨ fn = false →
      _evaluate model batch c nU nF ss ap rfo (some cols) false fn
        = ([], .error .typeError)) ∧
    (c = 0 ∨ c = 2 → ∀ pos : List Triple,
      ∃ rfr, (_evaluate model batch c nU nF ss (some pos) rfo (some cols) true fn).2
        = .ok rfr) := by
  by_cases hc : c = 0 ∨ c = 2
  · refine ⟨?_, ?_, fun _ pos => evalRestrOkWithMask model batch hc nU nF ss pos rfo cols fn⟩
    · cases ap with
      | some pos =>
        rw [evalRestrTypeErr model batch hc nU nF ss pos rfo cols fn]
        exact ⟨rfl, .typeError, rfl⟩
      | none =>
        cases fn with
        | false =>
          rw [evalRestrTypeErrNoPos model batch hc nU nF ss rfo cols]
          exact ⟨rfl, .typeError, rfl⟩
        | true =>
          rw [evalRestrAssert model batch hc nU nF ss rfo cols]
          exact ⟨rfl, .assertionError, rfl⟩
    · intro _ hap
      cases ap with
      | some pos => exact evalRestrTypeErr model batch hc nU nF ss pos rfo cols fn
      | none =>
        rcases hap with h | h
        · exact absurd rfl h
        · subst h; exact evalRestrTypeErrNoPos model batch hc nU nF ss rfo cols
  · have h1 : _evaluate model batch c nU nF ss ap rfo (some cols) false fn
        = ([], .error .valueError) := by
      unfold _evaluate; rw [if_neg hc]
    exact ⟨by rw [h1]; exact ⟨rfl, .valueError, rfl⟩,
      fun h => absurd h hc, fun h => absurd h hc⟩

/-- Witness for C10: the restricted no-mask call raises TypeError with an empty
trace, and the same call with the mask required returns normally. -/
theorem C10_restriction_requires_mask_witness :
    _evaluate testModel [⟨0, 0, 1⟩] 2 1 1 none (some [⟨0, 0, 1⟩]) none (some [0]) false true
      = ([], .error .typeError) ∧
    ∃ rfr, (_evaluate testModel [⟨0, 0, 1⟩] 2 1 1 none (some [⟨0, 0, 1⟩]) none (some [0])
      true true).2 = .ok rfr :=
  ⟨(C10_restriction_requires_mask testModel [⟨0, 0, 1⟩] 2 1 1 none (some [⟨0, 0, 1⟩])
      none [0] true).2.1 (Or.inr rfl) (Or.inl (by simp)),
   (C10_restriction_requires_mask testModel [⟨0, 0, 1⟩] 2 1 1 none (some [⟨0, 0, 1⟩])
      none [0] true).2.2 (Or.inr rfl) [⟨0, 0, 1⟩]⟩

/-- C4: when every batch triple is contained in the positive set (as `evaluate`
arranges by concatenating the evaluated triples into `all_pos_triples`), each row's
sparse positive filter contains the row's own true entity in the corrupted column,
and in every filtered dispatch of `_evaluate` the score at the row's true entity is
exactly the true score extracted before filtering (which is the model's raw score
there). -/
theorem C4_self_inclusion_and_restore (model : ModelFuns) (batch pos : List Triple)
    {c : Nat} (hc : c = 0 ∨ c = 2) (ss : Option Nat) (nU nF : Nat) (pmr : Bool)
    (hsub : ∀ t ∈ batch, t ∈ pos) :
    ∃ pf rf, create_sparse_positive_filter_ batch pos none c = .ok (pf, rf) ∧
      (∀ (i : Nat) (b : Triple), batch[i]? = some b → (i, b.col c) ∈ pf) ∧
      (∀ idx s ts, EvEvent.filteredProcess idx s ts ∈
          (_evaluate model batch c nU nF ss (some pos) none none pmr true).1 →
        ∀ (i : Nat) (b : Triple), batch[i]? = some b →
          ts i = predictScores model batch c ss i (b.col c) ∧
          s i (b.col c) = ts i) := by
  rcases create_sparse_ok batch pos none c hc with ⟨⟨pf, rf⟩, hr⟩
  refine ⟨pf, rf, hr, ?_, ?_⟩
  · intro i b hib
    rw [mem_create_sparse hc hr]
    refine ⟨b, hib, ?_⟩
    obtain ⟨j, hj⟩ := List.mem_iff_getElem?.mp (hsub b (List.getElem?_mem hib))
    exact ⟨j, b, hj, rfl, rfl, rfl⟩
  · intro idx s ts hmem i b hib
    obtain ⟨hlen, hgd⟩ := List.getElem?_eq_some_iff.mp hib
    have hgd2 : batch[i]?.getD default = b := by rw [hib]; rfl
    rcases hc with rfl | rfl <;> cases pmr <;>
      simp [_evaluate, hr] at hmem <;>
      · obtain ⟨i', hlt, rfl, hFs, hTs⟩ := hmem
        subst hFs
        subst hTs
        exact ⟨by simp [hgd2], by simp [hgd2, hgd, hlen]⟩

/-- Witness for C4 on a concrete one-triple batch contained in the positive set. -/
theorem C4_self_inclusion_and_restore_witness :
    ∃ pf rf, create_sparse_positive_filter_ [⟨0, 0, 1⟩] [⟨0, 0, 1⟩] none 2 = .ok (pf, rf) ∧
      (∀ (i : Nat) (b : Triple), [Triple.mk 0 0 1][i]? = some b → (i, b.col 2) ∈ pf) ∧
      (∀ idx s ts, EvEvent.filteredProcess idx s ts ∈
          (_evaluate testModel [⟨0, 0, 1⟩] 2 1 1 none (some [⟨0, 0, 1⟩]) none none
            false true).1 →
        ∀ (i : Nat) (b : Triple), [Triple.mk 0 0 1][i]? = some b →
          ts i = predictScores testModel [⟨0, 0, 1⟩] 2 none i (b.col 2) ∧
          s i (b.col 2) = ts i) :=
  C4_self_inclusion_and_restore testModel [⟨0, 0, 1⟩] [⟨0, 0, 1⟩] (Or.inr rfl) none 1 1
    false (fun _ ht => ht)

theorem _evaluate_trace_shape (model : ModelFuns) (batch : List Triple) (c : Nat)
    (nU nF : Nat) (ss : Option Nat) (ap : Option (List Triple)) (rfo : Option RelFilter)
    (re : Option (List Nat)) (pmr fn : Bool) :
    (_evaluate model batch c nU nF ss ap rfo re pmr fn).1 = [] ∨
    (∃ mU, (_evaluate model batch c nU nF ss ap rfo re pmr fn).1 =
      (List.range nU).map fun i => EvEvent.unfilteredProcess i
        (maybeRestrict re (predictScores model batch c ss))
        (fun i => predictScores model batch c ss i ((batch.getD i default).col c)) mU) ∨
    (∃ mU sF, (_evaluate model batch c nU nF ss ap rfo re pmr fn).1 =
      ((List.range nU).map fun i => EvEvent.unfilteredProcess i
        (maybeRestrict re (predictScores model batch c ss))
        (fun i => predictScores model batch c ss i ((batch.getD i default).col c)) mU) ++
      EvEvent.filterApplied :: ((List.range nF).map fun i => EvEvent.filteredProcess i sF
        (fun i => predictScores model batch c ss i ((batch.getD i default).col c)))) := by
  simp only [_evaluate]
  split
  · split
    · exact Or.inl rfl
    · next pft rflt heq1 =>
      split
      · exact Or.inl rfl
      · next pmt heq2 =>
        split
        · exact Or.inl rfl
        · next scores_ mask_ heq3 =>
          have hsc : scores_ = maybeRestrict re (predictScores model batch c ss) := by
            cases re with
            | none =>
              simp only [Except.ok.injEq, Prod.mk.injEq] at heq3
              exact heq3.1.symm
            | some cols =>
              cases pmt with
              | none => exact Except.noConfusion heq3
              | some m =>
                simp only [Except.ok.injEq, Prod.mk.injEq] at heq3
                exact heq3.1.symm
          rw [hsc]
          split
          · split
            · exact Or.inr (Or.inl ⟨mask_, rfl⟩)
            · exact Or.inr (Or.inr ⟨mask_, _, rfl⟩)
          · exact Or.inr (Or.inl ⟨mask_, rfl⟩)
  · exact Or.inl rfl

/-- C8: within one (batch, corruption side) call of `_evaluate`, every unfiltered
dispatch observes (restricted columns of) the model's raw score matrix, and every
unfiltered dispatch event occurs strictly before the in-place `filter_scores_`
mutation event in the trace. -/
theorem C8_unfiltered_before_filter (model : ModelFuns) (batch : List Triple) (c : Nat)
    (nU nF : Nat) (ss : Option Nat) (ap : Option (List Triple)) (rfo : Option RelFilter)
    (re : Option (List Nat)) (pmr fn : Bool) :
    (∀ idx s ts msk,
      EvEvent.unfilteredProcess idx s ts msk ∈
          (_evaluate model batch c nU nF ss ap rfo re pmr fn).1 →
      s = maybeRestrict re (predictScores model batch c ss)) ∧
    (∀ (j k : Nat) (ev : EvEvent),
      ((_evaluate model batch c nU nF ss ap rfo re pmr fn).1)[j]? = some ev →
      (∃ idx s ts msk, ev = EvEvent.unfilteredProcess idx s ts msk) →
      ((_evaluate model batch c nU nF ss ap rfo re pmr fn).1)[k]?
        = some EvEvent.filterApplied →
      j < k) := by
  obtain h | ⟨mU, h⟩ | ⟨mU, sF, h⟩ :=
    _evaluate_trace_shape model batch c nU nF ss ap rfo re pmr fn
  · constructor
    · intro idx s ts msk hmem
      rw [h] at hmem
      simp at hmem
    · intro j k ev hj _ _
      rw [h] at hj
      simp at hj
  · constructor
    · intro idx s ts msk hmem
      rw [h] at hmem
      rw [List.mem_map] at hmem
      obtain ⟨i, _, heq⟩ := hmem
      injection heq with h1 h2 h3 h4
      exact h2.symm
    · intro j k ev hj hev hk
      rw [h, List.getElem?_map] at hk
      cases hrg : (List.range nU)[k]? <;> rw [hrg] at hk <;> simp at hk
  · have hAlen : ((List.range nU).map fun i => EvEvent.unfilteredProcess i
        (maybeRestrict re (predictScores model batch c ss))
        (fun i => predictScores model batch c ss i ((batch.getD i default).col c)) mU).length
          = nU := by simp
    constructor
    · intro idx s ts msk hmem
      rw [h] at hmem
      simp only [List.mem_append, List.mem_cons, List.mem_map] at hmem
      rcases hmem with ⟨i, _, heq⟩ | heq | ⟨i, _, heq⟩
      · injection heq with h1 h2 h3 h4
        exact h2.symm
      · exact EvEvent.noConfusion heq
      · exact EvEvent.noConfusion heq
    · intro j k ev hj hev hk
      rw [h] at hj hk
      have hjlt : j < nU := by
        by_contra hge
        push_neg at hge
        have hge' : ((List.range nU).map fun i => EvEvent.unfilteredProcess i
            (maybeRestrict re (predictScores model batch c ss))
            (fun i => predictScores model batch c ss i ((batch.getD i default).col c))
            mU).length ≤ j := by rw [hAlen]; exact hge
        rw [List.getElem?_append_right hge'] at hj
        rw [hAlen] at hj
        obtain ⟨idx, s, ts, msk, rfl⟩ := hev
        rcases hm : j - nU with _ | m <;> rw [hm] at hj
        · simp at hj
        · rw [List.getElem?_cons_succ, List.getElem?_map] at hj
          cases hrg : (List.range nF)[m]? <;> rw [hrg] at hj <;> simp at hj
      have hknu : nU ≤ k := by
        by_contra hlt
        push_neg at hlt
        have hlt' : k < ((List.range nU).map fun i => EvEvent.unfilteredProcess i
            (maybeRestrict re (predictScores model batch c ss))
            (fun i => predictScores model batch c ss i ((batch.getD i default).col c))
            mU).length := by rw [hAlen]; exact hlt
        rw [List.getElem?_append, if_pos hlt'] at hk
        rw [List.getElem?_map] at hk
        cases hrg : (List.range nU)[k]? <;> rw [hrg] at hk <;> simp at hk
      omega

/-- Witness for C8: in a concrete run, the unfiltered dispatch sits at index 0,
the filter event at index 1, and the theorem yields 0 < 1. -/
theorem C8_unfiltered_before_filter_witness :
    ((_evaluate testModel [⟨0, 0, 1⟩] 2 1 1 none (some [⟨0, 0, 1⟩]) none none false
        true).1)[0]?
      = some (EvEvent.unfilteredProcess 0
          (maybeRestrict none (predictScores testModel [⟨0, 0, 1⟩] 2 none))
          (fun i => predictScores testModel [⟨0, 0, 1⟩] 2 none i
            ((([⟨0, 0, 1⟩] : List Triple).getD i default).col 2)) none) ∧
    ((_evaluate testModel [⟨0, 0, 1⟩] 2 1 1 none (some [⟨0, 0, 1⟩]) none none false
        true).1)[1]?
      = some EvEvent.filterApplied ∧
    (0 : Nat) < 1 := by
  refine ⟨rfl, rfl, ?_⟩
  refine (C8_unfiltered_before_filter testModel [⟨0, 0, 1⟩] 2 1 1 none (some [⟨0, 0, 1⟩])
      none none false true).2 0 1
      (EvEvent.unfilteredProcess 0
        (maybeRestrict none (predictScores testModel [⟨0, 0, 1⟩] 2 none))
        (fun i => predictScores testModel [⟨0, 0, 1⟩] 2 none i
          ((([⟨0, 0, 1⟩] : List Triple).getD i default).col 2)) none)
      rfl ⟨0, _, _, _, rfl⟩ rfl

/-- C1: the local `relation_filter` of `evaluate` is read (as an argument of the
first `_evaluate` call) before it has ever been assigned, so every call whose
post-restriction triple set yields at least one batch raises `UnboundLocalError`
with no dispatch performed, for every model alike, and `evaluate` completes
normally exactly when zero batches are produced. -/
theorem C1_unbound_relation_filter (model : ModelFuns) (train mt : List Triple)
    (evs : List EvalSpec) (osp : Bool) (bs ss : Option Nat)
    (re rr : Option (List Nat)) (mif : Bool) :
    (split_list_in_batches (restrictTriples mt re rr mif) (bs.getD 1) ≠ [] →
      evaluate model train mt evs osp bs ss re rr mif = ([], .error .unboundLocal)) ∧
    (split_list_in_batches (restrictTriples mt re rr mif) (bs.getD 1) = [] →
      evaluate model train mt evs osp bs ss re rr mif = ([], .ok ())) := by
  constructor <;> intro h <;>
    rcases hb : split_list_in_batches (restrictTriples mt re rr mif) (bs.getD 1)
      with _ | ⟨b, rest⟩
  · exact absurd hb h
  · simp only [evaluate, hb, evaluateLoop]
  · simp only [evaluate, hb, evaluateLoop]
  · rw [hb] at h; exact absurd h (by simp)

/-- Witness for C1: one batch raises the unbound-local error, an empty triple
list completes normally. -/
theorem C1_unbound_relation_filter_witness :
    evaluate testModel [] [⟨0, 0, 1⟩] [⟨true, false⟩] false none none none none false
      = ([], .error .unboundLocal) ∧
    evaluate testModel [] [] [⟨true, false⟩] false none none none none false
      = ([], .ok ()) :=
  ⟨(C1_unbound_relation_filter testModel [] [⟨0, 0, 1⟩] [⟨true, false⟩] false none none
      none none false).1 (by simp [split_list_in_batches, restrictTriples]),
   (C1_unbound_relation_filter testModel [] [] [⟨true, false⟩] false none none
      none none false).2 (by simp [split_list_in_batches, restrictTriples])⟩

theorem loop_phase2 (probe : Nat → Option Nat → Bool) (key : SearchKey) (maxT K : Nat)
    (hp : ∀ v, probe (probedBatch key v) (probedSlice key v) = decide (v ≤ K))
    (hK : 1 ≤ K) :
    ∀ v, 1 ≤ v → ∀ eo : Bool, ∃ fuel w,
      _param_size_search_loop probe key maxT v true eo fuel = some (w, true) ∧ w ≤ K := by
  intro v
  induction v using Nat.strong_induction_on with
  | _ v ih =>
    intro hv eo
    by_cases hvK : v ≤ K
    · cases eo with
      | true => exact ⟨1, v, by simp [_param_size_search_loop, hp, hvK], hvK⟩
      | false => exact ⟨2, v, by simp [_param_size_search_loop, hp, hvK], hvK⟩
    · have hv2 : 2 ≤ v := by omega
      obtain ⟨fuel, w, hw, hwK⟩ := ih (v / 2) (by omega) (by omega) false
      refine ⟨fuel + 1, w, ?_, hwK⟩
      simp [_param_size_search_loop, hp, hvK, show v ≠ 1 by omega, hw]

theorem loop_phase1 (probe : Nat → Option Nat → Bool) (key : SearchKey) (maxT K : Nat)
    (hp : ∀ v, probe (probedBatch key v) (probedSlice key v) = decide (v ≤ K))
    (hK : 1 ≤ K) (hm : 1 ≤ maxT) :
    ∀ (n v : Nat), K + maxT - v ≤ n → 1 ≤ v → ∀ eo : Bool, ∃ fuel w,
      _param_size_search_loop probe key maxT v false eo fuel = some (w, true) ∧ w ≤ K := by
  intro n
  induction n using Nat.strong_induction_on with
  | _ n ih =>
    intro v hn hv eo
    by_cases hvK : v ≤ K
    · by_cases hgrow : probedBatch key v < maxT
      · have hlt : K + maxT - v * 2 < n := by
          have h1 : K + maxT - v * 2 < K + maxT - v := by omega
          omega
        obtain ⟨fuel, w, hw, hwK⟩ := ih (K + maxT - v * 2) hlt (v * 2) (le_refl _)
          (by omega) true
        refine ⟨fuel + 1, w, ?_, hwK⟩
        simp [_param_size_search_loop, hp, hvK, hgrow, hw]
      · cases eo with
        | true => exact ⟨1, v, by simp [_param_size_search_loop, hp, hvK, hgrow], hvK⟩
        | false => exact ⟨2, v, by simp [_param_size_search_loop, hp, hvK, hgrow], hvK⟩
    · have hv2 : 2 ≤ v := by omega
      obtain ⟨fuel, w, hw, hwK⟩ := loop_phase2 probe key maxT K hp hK (v / 2)
        (by omega) false
      refine ⟨fuel + 1, w, ?_, hwK⟩
      simp [_param_size_search_loop, hp, hvK, show v ≠ 1 by omega, hw]

theorem loop_allfail (key : SearchKey) (maxT : Nat) :
    ∀ (v fuel : Nat), 1 ≤ v → v ≤ fuel → ∀ r : Bool,
      _param_size_search_loop (fun _ _ => false) key maxT v r false fuel
        = some (1, false) := by
  intro v
  induction v using Nat.strong_induction_on with
  | _ v ih =>
    intro fuel hv hf r
    obtain ⟨f, rfl⟩ : ∃ f, fuel = f + 1 := ⟨fuel - 1, by omega⟩
    by_cases h1 : v = 1
    · subst h1; simp [_param_size_search_loop]
    · have hv2 : 2 ≤ v := by omega
      have hrec := ih (v / 2) (by omega) f (by omega) (by omega) true
      simp [_param_size_search_loop, h1, hrec]

/-- C5 (amended): for every threshold K ≥ 1 and the probe that fails exactly above
K, `_param_size_search` terminates (with sufficient fuel) for both keys, reports
`evaluated_once = true`, and returns a value at which the probe succeeds (a value
≤ K); it does not in general return K itself (see the counterexample). -/
theorem C5_size_search_sound (K maxT : Nat) (sv : Option Nat) (inv canT canH : Bool)
    (hK : 1 ≤ K) (hm : 1 ≤ maxT) :
    (1 ≤ sv.getD 256 →
      ∃ fuel v, _param_size_search (fun bs ss => decide (ss.getD bs ≤ K)) .batch_size sv
          maxT inv canT canH fuel = some (.ok (v, true)) ∧ v ≤ K ∧
        decide (v ≤ K) = true) ∧
    (1 ≤ sv.getD 0 → _check_slicing_availability inv canT canH = .ok () →
      ∃ fuel v, _param_size_search (fun bs ss => decide (ss.getD bs ≤ K)) .slice_size sv
          maxT inv canT canH fuel = some (.ok (v, true)) ∧ v ≤ K ∧
        decide (v ≤ K) = true) := by
  constructor
  · intro hsv
    have hp : ∀ v, (fun bs ss => decide (ss.getD bs ≤ K)) (probedBatch .batch_size v)
        (probedSlice .batch_size v) = decide (v ≤ K) := fun v => rfl
    have hv1 : 1 ≤ (if sv.getD 256 > maxT then maxT else sv.getD 256) := by
      split <;> omega
    obtain ⟨fuel, w, hw, hwK⟩ := loop_phase1 (fun bs ss => decide (ss.getD bs ≤ K))
      .batch_size maxT K hp hK hm (K + maxT) _ (by omega) hv1 false
    refine ⟨fuel, w, ?_, hwK, by simpa using hwK⟩
    simp only [_param_size_search, hw, Option.map_some']
  · intro hsv hchk
    have hp : ∀ v, (fun bs ss => decide (ss.getD bs ≤ K)) (probedBatch .slice_size v)
        (probedSlice .slice_size v) = decide (v ≤ K) := fun v => rfl
    obtain ⟨fuel, w, hw, hwK⟩ := loop_phase1 (fun bs ss => decide (ss.getD bs ≤ K))
      .slice_size maxT K hp hK hm (K + maxT) _ (by omega) hsv false
    refine ⟨fuel, w, ?_, hwK, by simpa using hwK⟩
    simp only [_param_size_search, hchk, hw, Option.map_some']

/-- Counterexample for C5 as stated: with threshold K = 5 and the default start
value 256, the batch-size search returns 4, although the probe succeeds at the
achievable value 5 — the search is sound but does not converge to exactly K. -/
theorem C5_size_search_counterexample :
    _param_size_search (fun bs ss => decide (ss.getD bs ≤ 5)) .batch_size none 1000
        false true true 30 = some (.ok (4, true)) ∧
    (fun bs ss => decide (ss.getD bs ≤ 5)) 5 (none : Option Nat) = true ∧
    (4 : Nat) < 5 :=
  ⟨rfl, rfl, by omega⟩

/-- Witness for C5 at K = 3 with 10 triples and the default start value. -/
theorem C5_size_search_sound_witness :
    ∃ fuel v, _param_size_search (fun bs ss => decide (ss.getD bs ≤ 3)) .batch_size none
        10 false true true fuel = some (.ok (v, true)) ∧ v ≤ 3 ∧
      decide (v ≤ 3) = true :=
  (C5_size_search_sound 3 10 none false true true (by omega) (by omega)).1 (by simp)

/-- C6: with a probe that always fails with a memory-class error, the batch-size
search terminates unsuccessfully at value 1 with `evaluated_once = false`, the
slice-size search starting from `ceil(num_entities / 2)` (batch size pinned to 1)
does the same, and `batch_and_slice` raises the fatal `MemoryError`. -/
theorem C6_sizing_exhaustion (bs : Option Nat) (maxT nE : Nat) (inv canT canH : Bool)
    (hbs : 1 ≤ bs.getD 256) (hm : 1 ≤ maxT) (hE : 1 ≤ nE)
    (hslice : _check_slicing_availability inv canT canH = .ok ()) :
    ∃ fuel : Nat,
      _param_size_search (fun _ _ => false) .batch_size bs maxT inv canT canH fuel
        = some (.ok (1, false)) ∧
      _param_size_search (fun _ _ => false) .slice_size (some ((nE + 1) / 2)) maxT
        inv canT canH fuel = some (.ok (1, false)) ∧
      batch_and_slice (fun _ _ => false) bs maxT nE inv canT canH fuel
        = some (.error .memoryError) := by
  refine ⟨bs.getD 256 + nE, ?_, ?_, ?_⟩
  · have hv1 : 1 ≤ (if bs.getD 256 > maxT then maxT else bs.getD 256) := by
      split <;> omega
    have hv2 : (if bs.getD 256 > maxT then maxT else bs.getD 256) ≤ bs.getD 256 + nE := by
      split <;> omega
    have hb := loop_allfail .batch_size maxT _ _ hv1 hv2 false
    simp only [_param_size_search, hb, Option.map_some']
  · have h1 : 1 ≤ (nE + 1) / 2 := by omega
    have h2 : (nE + 1) / 2 ≤ bs.getD 256 + nE := by omega
    have hs := loop_allfail .slice_size maxT _ _ h1 h2 false
    simp only [_param_size_search, hslice, Option.getD_some, hs, Option.map_some']
  · have hv1 : 1 ≤ (if bs.getD 256 > maxT then maxT else bs.getD 256) := by
      split <;> omega
    have hv2 : (if bs.getD 256 > maxT then maxT else bs.getD 256) ≤ bs.getD 256 + nE := by
      split <;> omega
    have hb := loop_allfail .batch_size maxT _ _ hv1 hv2 false
    have h1 : 1 ≤ (nE + 1) / 2 := by omega
    have h2 : (nE + 1) / 2 ≤ bs.getD 256 + nE := by omega
    have hs := loop_allfail .slice_size maxT _ _ h1 h2 false
    simp only [batch_and_slice, _param_size_search, hslice, Option.getD_some, hb, hs,
      Option.map_some']
    simp

/-- Witness for C6 on a 10-triple, 10-entity configuration with slicing support. -/
theorem C6_sizing_exhaustion_witness :
    ∃ fuel : Nat,
      _param_size_search (fun _ _ => false) .batch_size none 10 false true true fuel
        = some (.ok (1, false)) ∧
      _param_size_search (fun _ _ => false) .slice_size (some ((10 + 1) / 2)) 10
        false true true fuel = some (.ok (1, false)) ∧
      batch_and_slice (fun _ _ => false) none 10 10 false true true fuel
        = some (.error .memoryError) :=
  C6_sizing_exhaustion none 10 10 false true true (by simp) (by omega) (by omega) rfl

/-- Counterexample for C7 as stated: with inverse relations present, the code
accepts a model that cannot slice on the head side (no error although the claim
requires both sides), and without inverse relations, tail-side support alone is
rejected (an error although the claim says tail support suffices). -/
theorem C7_slicing_check_counterexample :
    _check_slicing_availability true true false = .ok () ∧
    _check_slicing_availability true true false ≠ .error .memoryError ∧
    _check_slicing_availability false true false = .error .memoryError :=
  ⟨rfl, fun h => Except.noConfusion h, rfl⟩

/-- C7 (amended): before any slice-size probing, `_param_size_search` verifies the
model's slicing support and fails immediately with the sizing `MemoryError`
(regardless of the probe) when it is missing; with inverse relations tail-side
slicing support alone is required, and without inverse relations both tail-side
and head-side support are required. -/
theorem C7_slicing_check (inv canT canH : Bool) :
    (_check_slicing_availability inv canT canH = .ok ()
      ↔ (if inv = true then canT = true else canT = true ∧ canH = true)) ∧
    (∀ e, _check_slicing_availability inv canT canH = .error e → e = .memoryError) ∧
    (_check_slicing_availability inv canT canH = .error .memoryError →
      ∀ (probe : Nat → Option Nat → Bool) (sv : Option Nat) (maxT fuel : Nat),
        _param_size_search probe .slice_size sv maxT inv canT canH fuel
          = some (.error .memoryError)) := by
  refine ⟨?_, ?_, ?_⟩
  · cases inv <;> cases canT <;> cases canH <;> simp [_check_slicing_availability]
  · intro e he
    cases inv <;> cases canT <;> cases canH <;>
      simp [_check_slicing_availability] at he <;> simp [he.symm]
  · intro h probe sv maxT fuel
    simp only [_param_size_search, h]

/-- Witness for C7: a model without tail slicing fails the check, and the slice
search fails immediately even for an always-succeeding probe. -/
theorem C7_slicing_check_witness :
    _check_slicing_availability false false true = .error .memoryError ∧
    _param_size_search (fun _ _ => true) .slice_size (some 8) 10 false false true 50
      = some (.error .memoryError) :=
  ⟨rfl, (C7_slicing_check false false true).2.2 rfl (fun _ _ => true) (some 8) 10 50⟩


end Pykeen

